import Mathlib

/-!
Verification development for the unified-market scheduling / deduplication /
delivery-orchestration core.

The definitions below are a shallow embedding of the Python sources:

* `src/utils/resilience.py`          — `retry_with_backoff`
* `src/services/database.py`         — `UnifiedDatabase` (the Dedup Store)
* `src/modules/capital_market/tracker.py`  — `NewsTracker`
* `src/modules/market_insights/data_processor.py` — recency filter and
  `filter_new_insights`
* `src/modules/market_insights/telegram_notifier.py` — `send_batch_notifications`
* `src/services/scheduler.py`        — `job_capital_market`, `job_market_insights`

External collaborators (Telegram transport, HTTP fetchers, the renderer and the
wall clock) are injected as parameters: the per-item send outcome is an oracle
`sendOk`, and "today in IST, formatted %d %b, %Y" is a `today : String`
parameter.  SQLite is modelled as in-memory lists of records plus a
`storage_ok` flag standing for "the storage layer does not raise"; the
`UNIQUE` constraints on `news_id` / `insight_id` become membership checks
(an insert on a present key is the `sqlite3.IntegrityError` branch).
-/

set_option autoImplicit false

/-! ### String helpers (Python `str.split('  ')[0]` and `str.strip()`) -/

/-- Python whitespace test used by `str.strip()` (the characters that occur in
the data of interest; Python additionally strips `\x0b`/`\x0c`). -/
def isPySpace (c : Char) : Bool :=
  c == ' ' || c == '\t' || c == '\n' || c == '\r'

/-- Python `s.strip()` on a character list: drop whitespace from both ends. -/
def pyStrip (cs : List Char) : List Char :=
  ((cs.dropWhile isPySpace).reverse.dropWhile isPySpace).reverse

/-- Everything before the first occurrence of two consecutive spaces; this is
Python `s.split('  ')[0]`. -/
def firstChunk : List Char → List Char
  | [] => []
  | ' ' :: ' ' :: _ => []
  | c :: rest => c :: firstChunk rest

/-! ### Data model: content items -/

/-- `MarketInsight` from `src/modules/market_insights/data_processor.py`.
`news_date` is `Optional[str]` in Python but is only ever tested for
truthiness, so `None` and `""` coincide and we use `""` for both. -/
structure MarketInsight where
  stock_name : String
  label : String
  notification : String
  insight_id : String
  timestamp : String
  news_date : String
deriving DecidableEq, Repr

/-- `NewsArticle` from `src/modules/capital_market/scraper.py`.  The fields
hold what the Python constructor stored (`title` and `description` already
`.strip()`-ed there). -/
structure NewsArticle where
  title : String
  url : String
  timestamp : String
  description : String
  image_url : String
  news_id : String
deriving DecidableEq, Repr

/-! ### Dedup Store: `UnifiedDatabase` (src/services/database.py) -/

/-- One row of the `capital_market_news` table. -/
structure CMRecord where
  news_id : String
  title : String
  url : String
  timestamp : String
deriving DecidableEq, Repr

/-- One row of the `notifications` table. -/
structure NotifRecord where
  insight_id : String
  stock_name : String
  label : String
  notification : String
deriving DecidableEq, Repr

/-- The SQLite store: the two per-namespace tables, plus a flag saying whether
the storage layer is healthy (`false` models every storage operation raising,
which the Python methods catch). -/
structure UnifiedDatabase where
  capital_market_news : List CMRecord
  notifications : List NotifRecord
  storage_ok : Bool
deriving DecidableEq, Repr

/-- The fingerprints currently in the `capital_market_news` namespace. -/
def cm_ids (db : UnifiedDatabase) : List String :=
  db.capital_market_news.map (·.news_id)

/-- The fingerprints currently in the `notifications` namespace. -/
def mi_ids (db : UnifiedDatabase) : List String :=
  db.notifications.map (·.insight_id)

/-- `UnifiedDatabase.is_news_sent`: `SELECT 1 ... WHERE news_id = ?`; any
storage exception is caught and `False` is returned (fail closed). -/
def is_news_sent (db : UnifiedDatabase) (news_id : String) : Bool :=
  if db.storage_ok then decide (news_id ∈ cm_ids db) else false

/-- `UnifiedDatabase.add_sent_news`: `INSERT` returning `True`; on
`sqlite3.IntegrityError` (fingerprint already present, by the `UNIQUE`
constraint) return `False` leaving the table unchanged; any other storage
exception also yields `False` with no change. -/
def add_sent_news (db : UnifiedDatabase) (news_id title url timestamp : String) :
    Bool × UnifiedDatabase :=
  if db.storage_ok = false then (false, db)
  else if news_id ∈ cm_ids db then (false, db)
  else (true, { db with capital_market_news :=
                  db.capital_market_news ++ [⟨news_id, title, url, timestamp⟩] })

/-- `UnifiedDatabase.get_all_insight_ids`: `SELECT insight_id FROM
notifications`; on a storage exception the empty set is returned. -/
def get_all_insight_ids (db : UnifiedDatabase) : List String :=
  if db.storage_ok then mi_ids db else []

/-- `UnifiedDatabase.add_notification`: `INSERT` returning `True`; `False`
without change on `IntegrityError` (duplicate `insight_id`) or any other
storage exception. -/
def add_notification (db : UnifiedDatabase)
    (insight_id stock_name label notification : String) : Bool × UnifiedDatabase :=
  if db.storage_ok = false then (false, db)
  else if insight_id ∈ mi_ids db then (false, db)
  else (true, { db with notifications :=
                  db.notifications ++ [⟨insight_id, stock_name, label, notification⟩] })

/-! ### NewsTracker (src/modules/capital_market/tracker.py) -/

/-- `NewsTracker.mark_as_sent`: store the article's fingerprint and metadata
via `add_sent_news` (the returned flag is only logged). -/
def mark_as_sent (db : UnifiedDatabase) (article : NewsArticle) : UnifiedDatabase :=
  (add_sent_news db article.news_id article.title article.url article.timestamp).2

/-- `NewsTracker.filter_new_articles`: keep, in order, the articles whose
`news_id` is not reported sent by `is_news_sent`. -/
def filter_new_articles (db : UnifiedDatabase) (articles : List NewsArticle) :
    List NewsArticle :=
  articles.filter fun article => !(is_news_sent db article.news_id)

/-! ### Recency filter (src/modules/market_insights/data_processor.py) -/

/-- `DataProcessor._parse_news_date`: for a truthy (non-empty) timestamp
return the text before the first double space, stripped; otherwise `None`.
Example: `"12 Dec, 2025  3:23 PM (IST)"` yields `"12 Dec, 2025"`. -/
def parse_news_date (timestamp_str : String) : Option String :=
  if timestamp_str == "" then none
  else some (String.mk (pyStrip (firstChunk timestamp_str.data)))

/-- `DataProcessor._is_today_ist` with the clock injected: if the parsed date
is truthy, compare it with today's `%d %b, %Y` string; otherwise (parse gave
`None` or an empty chunk) return `True` (fail open). -/
def is_today_ist (today_str : String) (news_date_str : String) : Bool :=
  match parse_news_date news_date_str with
  | some parsed => if parsed != "" then parsed == today_str else true
  | none => true

/-- `DataProcessor.filter_new_insights`: skip an insight with a truthy
`news_date` that is not from today, then skip insights whose `insight_id` is
in `seen_ids`; the survivors keep their order. -/
def filter_new_insights (today_str : String) (all_insights : List MarketInsight)
    (seen_ids : List String) : List MarketInsight :=
  all_insights.filter fun insight =>
    (if insight.news_date != "" then is_today_ist today_str insight.news_date else true)
    && !(seen_ids.contains insight.insight_id)

/-! ### Delivery (telegram_notifier.py and scheduler.py) -/

/-- `TelegramNotifier.send_batch_notifications` with the transport outcome
injected: walk the insights in order, counting successes and failures; the
third component records the insights in the order their sends were attempted.
No database write happens here. -/
def send_batch_notifications (sendOk : MarketInsight → Bool) :
    List MarketInsight → Nat × Nat × List MarketInsight
  | [] => (0, 0, [])
  | insight :: rest =>
    let r := send_batch_notifications sendOk rest
    if sendOk insight then (r.1 + 1, r.2.1, insight :: r.2.2)
    else (r.1, r.2.1 + 1, insight :: r.2.2)

/-- The delivery loop of `UnifiedScheduler.job_capital_market` (lines
143-149): for each article in order, attempt the send; only on success call
`mark_as_sent`.  Returns the final store and the articles in the order their
sends were attempted. -/
def send_news_loop (sendOk : NewsArticle → Bool) :
    UnifiedDatabase → List NewsArticle → UnifiedDatabase × List NewsArticle
  | db, [] => (db, [])
  | db, article :: rest =>
    let db2 := if sendOk article then mark_as_sent db article else db
    let r := send_news_loop sendOk db2 rest
    (r.1, article :: r.2)

/-- The commit loop at the end of `UnifiedScheduler.job_market_insights`
(lines 106-112): `add_notification` for every insight of the list, in order,
with no condition on the send outcome. -/
def add_notification_loop : UnifiedDatabase → List MarketInsight → UnifiedDatabase
  | db, [] => db
  | db, insight :: rest =>
    add_notification_loop
      (add_notification db insight.insight_id insight.stock_name insight.label
        insight.notification).2 rest

namespace settings

/-- `Settings.MAX_NEWS_PER_RUN` (src/config/settings.py line 51). -/
def MAX_NEWS_PER_RUN : Nat := 10

/-- `Settings.RATE_LIMIT_DELAY` (src/config/settings.py line 38). -/
def RATE_LIMIT_DELAY : Nat := 3

end settings

/-- The articles of `job_capital_market` that survive the dedup filter and
have a truthy description (`valid_articles` in the Python). -/
def valid_articles (db : UnifiedDatabase) (articles : List NewsArticle) :
    List NewsArticle :=
  (filter_new_articles db articles).filter fun a => a.description != ""

/-- The truncation step of `job_capital_market`: if more than
`maxNewsPerRun` articles remain, keep only the first `maxNewsPerRun`. -/
def capped_articles (maxNewsPerRun : Nat) (arts : List NewsArticle) :
    List NewsArticle :=
  if arts.length > maxNewsPerRun then arts.take maxNewsPerRun else arts

/-- `UnifiedScheduler.job_capital_market` with the scraper result and the
send outcomes injected: early return on an empty scrape or an empty valid
list, otherwise run the delivery loop on the capped valid articles.  Returns
the final store and the attempted articles in order. -/
def job_capital_market (maxNewsPerRun : Nat) (sendOk : NewsArticle → Bool)
    (db : UnifiedDatabase) (articles : List NewsArticle) :
    UnifiedDatabase × List NewsArticle :=
  if articles.isEmpty then (db, [])
  else if (valid_articles db articles).isEmpty then (db, [])
  else send_news_loop sendOk db (capped_articles maxNewsPerRun (valid_articles db articles))

/-- `UnifiedScheduler.job_market_insights` with the extracted insights, the
clock and the send outcomes injected: read the seen ids, filter, early return
if nothing is new, otherwise send the batch and then commit every filtered
insight.  Returns the final store and the attempted insights in order. -/
def job_market_insights (today_str : String) (sendOk : MarketInsight → Bool)
    (db : UnifiedDatabase) (insights : List MarketInsight) :
    UnifiedDatabase × List MarketInsight :=
  if insights.isEmpty then (db, [])
  else
    let seen := get_all_insight_ids db
    let newInsights := filter_new_insights today_str insights seen
    if newInsights.isEmpty then (db, [])
    else
      let batch := send_batch_notifications sendOk newInsights
      (add_notification_loop db newInsights, batch.2.2)

/-! ### Retry Wrapper (src/utils/resilience.py) -/

/-- What one attempt of the wrapped operation does: return a value, raise an
exception of a kind listed in `exceptions`, or raise one outside that set. -/
inductive AttemptResult (ε α : Type) where
  | ok (a : α)
  | declaredErr (e : ε)
  | undeclaredErr (e : ε)
deriving DecidableEq, Repr

/-- How a call of the wrapped function ends for the caller. -/
inductive RunOutcome (ε α : Type) where
  | value (a : α)
  | raised (e : ε)
deriving DecidableEq, Repr

/-- Observable trace of one call through the wrapper: the final outcome, how
many attempts were made, and the sleeps performed, in order. -/
structure Execution (ε α : Type) where
  outcome : RunOutcome ε α
  attemptsMade : Nat
  delays : List ℚ
deriving DecidableEq, Repr

/-- The `for attempt in range(retries + 1)` loop shared by `async_wrapper`
and `sync_wrapper`, at attempt index `attempt` with `remaining` further
indices to go and current `delay`.  An `ok` result returns; an undeclared
exception propagates at once; a declared exception on the last index
re-raises, and otherwise sleeps `delay` and continues with
`min (delay * backoffFactor) maxDelay`. -/
def retryFrom {ε α : Type} (f : Nat → AttemptResult ε α) (maxDelay backoffFactor : ℚ) :
    Nat → ℚ → Nat → Execution ε α
  | attempt, _, 0 =>
    match f attempt with
    | .ok a => ⟨.value a, 1, []⟩
    | .declaredErr e => ⟨.raised e, 1, []⟩
    | .undeclaredErr e => ⟨.raised e, 1, []⟩
  | attempt, delay, remaining + 1 =>
    match f attempt with
    | .ok a => ⟨.value a, 1, []⟩
    | .undeclaredErr e => ⟨.raised e, 1, []⟩
    | .declaredErr _ =>
      let rest := retryFrom f maxDelay backoffFactor (attempt + 1)
        (min (delay * backoffFactor) maxDelay) remaining
      ⟨rest.outcome, rest.attemptsMade + 1, delay :: rest.delays⟩

/-- `retry_with_backoff(retries, initial_delay, max_delay, backoff_factor,
exceptions)` applied to an operation whose behaviour on attempt `i`
(0-indexed) is `f i`.  Both Python wrappers run the same loop; only the wait
primitive differs, so one model covers both. -/
def retry_with_backoff {ε α : Type} (retries : Nat)
    (initial_delay max_delay backoff_factor : ℚ) (f : Nat → AttemptResult ε α) :
    Execution ε α :=
  retryFrom f max_delay backoff_factor 0 initial_delay retries

/-- The successive values taken by the Python `delay` variable: `delay_seq m
fac d r` lists the `r` sleeps performed when every attempt fails with a
declared exception, starting from current delay `d`. -/
def delay_seq (maxDelay backoffFactor : ℚ) : ℚ → Nat → List ℚ
  | _, 0 => []
  | d, r + 1 => d :: delay_seq maxDelay backoffFactor (min (d * backoffFactor) maxDelay) r

/-! ### Concrete instances used in counterexamples and witnesses -/

/-- Transport oracle that confirms every capital-market send. -/
def sendOkAll : NewsArticle → Bool := fun _ => true

/-- Transport oracle for which every market-insight send fails. -/
def sendFailAllMI : MarketInsight → Bool := fun _ => false

/-- Transport oracle that fails exactly the article fingerprinted "b". -/
def sendFailB : NewsArticle → Bool := fun a => !(a.news_id == "b")

/-- A fresh, healthy Dedup Store. -/
def freshDb : UnifiedDatabase := ⟨[], [], true⟩

/-- Article A of the [A, B, C] skip-on-failure scenario. -/
def exA : NewsArticle := ⟨"Title A", "https://x/a", "10:00 AM", "Desc A", "", "a"⟩

/-- Article B, whose send permanently fails under `sendFailB`. -/
def exB : NewsArticle := ⟨"Title B", "https://x/b", "10:05 AM", "Desc B", "", "b"⟩

/-- Article C of the [A, B, C] scenario. -/
def exC : NewsArticle := ⟨"Title C", "https://x/c", "10:10 AM", "Desc C", "", "c"⟩

/-- First article of the f1/f2 no-redelivery scenario. -/
def exF1 : NewsArticle := ⟨"News one", "https://x/1", "9:00 AM", "D1", "", "f1"⟩

/-- Second article of the f1/f2 no-redelivery scenario. -/
def exF2 : NewsArticle := ⟨"News two", "https://x/2", "9:05 AM", "D2", "", "f2"⟩

/-- An insight dated today (reference date 14 Dec, 2025) whose send fails. -/
def exInsightFail : MarketInsight :=
  ⟨"ACME Corp", "Results", "Quarterly results", "mi-1", "t0", "14 Dec, 2025"⟩

/-- An insight dated 12 Dec, 2025, stale relative to the reference date. -/
def exOldInsight : MarketInsight :=
  ⟨"Old Co", "Stale", "Old news", "mi-old", "t1", "12 Dec, 2025  3:23 PM (IST)"⟩

/-- An insight dated today, 14 Dec, 2025. -/
def exTodayInsight : MarketInsight :=
  ⟨"Fresh Co", "New", "Fresh news", "mi-new", "t2", "14 Dec, 2025  9:05 AM (IST)"⟩

/-- An insight whose `news_date` is truthy but unparsable (whitespace only:
the extracted date chunk strips to the empty string). -/
def exBlankDateInsight : MarketInsight :=
  ⟨"Blank Co", "Odd", "No date", "mi-blank", "t3", " "⟩

/-- Attempt behaviour that fails with a declared exception on every try. -/
def alwaysDeclared : Nat → AttemptResult Unit Unit := fun _ => .declaredErr ()

/-- Attempt behaviour: declared failure on the first try, then an exception
outside the declared set on the second. -/
def exMixedAttempts : Nat → AttemptResult Unit Unit :=
  fun k => if k = 0 then .declaredErr () else .undeclaredErr ()

/-- A healthy store that already holds fingerprint "f1" in the capital-market
namespace and "mi-1" in the insights namespace. -/
def exDbSent : UnifiedDatabase :=
  ⟨[⟨"f1", "News one", "https://x/1", "9:00 AM"⟩],
   [⟨"mi-1", "ACME Corp", "Results", "Quarterly results"⟩], true⟩

/-! ## Helper lemmas -/

theorem mark_as_sent_storage (db : UnifiedDatabase) (a : NewsArticle) :
    (mark_as_sent db a).storage_ok = db.storage_ok := by
  unfold mark_as_sent add_sent_news
  by_cases h : db.storage_ok = false
  · simp [h]
  · by_cases h2 : a.news_id ∈ cm_ids db <;> simp [h, h2]

theorem mark_as_sent_mem (db : UnifiedDatabase) (a : NewsArticle)
    (h : db.storage_ok = true) (nid : String) :
    nid ∈ cm_ids (mark_as_sent db a) ↔ nid ∈ cm_ids db ∨ nid = a.news_id := by
  unfold mark_as_sent add_sent_news
  by_cases h2 : a.news_id ∈ cm_ids db
  · simp only [h, Bool.true_eq_false, if_false, h2, if_true]
    constructor
    · exact Or.inl
    · rintro (hm | rfl)
      · exact hm
      · exact h2
  · simp only [h, Bool.true_eq_false, if_false, h2, if_true]
    simp [cm_ids, List.mem_append, or_comm, eq_comm]

theorem send_news_loop_storage (sendOk : NewsArticle → Bool) (db : UnifiedDatabase)
    (l : List NewsArticle) :
    (send_news_loop sendOk db l).1.storage_ok = db.storage_ok := by
  induction l generalizing db with
  | nil => rfl
  | cons a rest ih =>
    simp only [send_news_loop]
    by_cases hs : sendOk a = true
    · simp only [hs, if_true]
      rw [ih, mark_as_sent_storage]
    · simp only [Bool.not_eq_true] at hs
      simp only [hs, Bool.false_eq_true, if_false]
      exact ih db

theorem send_news_loop_attempted (sendOk : NewsArticle → Bool) (db : UnifiedDatabase)
    (l : List NewsArticle) :
    (send_news_loop sendOk db l).2 = l := by
  induction l generalizing db with
  | nil => rfl
  | cons a rest ih => simp only [send_news_loop, ih]

theorem send_news_loop_mem (sendOk : NewsArticle → Bool) (db : UnifiedDatabase)
    (l : List NewsArticle) (h : db.storage_ok = true) (nid : String) :
    nid ∈ cm_ids (send_news_loop sendOk db l).1 ↔
      nid ∈ cm_ids db ∨ ∃ a, a ∈ l ∧ sendOk a = true ∧ a.news_id = nid := by
  induction l generalizing db with
  | nil => simp [send_news_loop]
  | cons a rest ih =>
    simp only [send_news_loop]
    by_cases hs : sendOk a = true
    · simp only [hs, if_true]
      rw [ih _ (by rw [mark_as_sent_storage]; exact h),
        mark_as_sent_mem db a h nid]
      constructor
      · rintro ((hm | rfl) | ⟨x, hx, hox, rfl⟩)
        · exact Or.inl hm
        · exact Or.inr ⟨a, List.mem_cons_self a rest, hs, rfl⟩
        · exact Or.inr ⟨x, List.mem_cons_of_mem a hx, hox, rfl⟩
      · rintro (hm | ⟨x, hx, hox, rfl⟩)
        · exact Or.inl (Or.inl hm)
        · rcases List.mem_cons.mp hx with rfl | hx2
          · exact Or.inl (Or.inr rfl)
          · exact Or.inr ⟨x, hx2, hox, rfl⟩
    · simp only [Bool.not_eq_true] at hs
      simp only [hs, Bool.false_eq_true, if_false]
      rw [ih db h]
      constructor
      · rintro (hm | ⟨x, hx, hox, rfl⟩)
        · exact Or.inl hm
        · exact Or.inr ⟨x, List.mem_cons_of_mem a hx, hox, rfl⟩
      · rintro (hm | ⟨x, hx, hox, rfl⟩)
        · exact Or.inl hm
        · rcases List.mem_cons.mp hx with rfl | hx2
          · rw [hs] at hox; cases hox
          · exact Or.inr ⟨x, hx2, hox, rfl⟩

theorem add_notification_storage (db : UnifiedDatabase) (i s lb n : String) :
    (add_notification db i s lb n).2.storage_ok = db.storage_ok := by
  unfold add_notification
  by_cases h : db.storage_ok = false
  · simp [h]
  · by_cases h2 : i ∈ mi_ids db <;> simp [h, h2]

theorem add_notification_mem (db : UnifiedDatabase) (i s lb n : String)
    (h : db.storage_ok = true) (iid : String) :
    iid ∈ mi_ids (add_notification db i s lb n).2 ↔ iid ∈ mi_ids db ∨ iid = i := by
  unfold add_notification
  by_cases h2 : i ∈ mi_ids db
  · simp only [h, Bool.true_eq_false, if_false, h2, if_true]
    constructor
    · exact Or.inl
    · rintro (hm | rfl)
      · exact hm
      · exact h2
  · simp only [h, Bool.true_eq_false, if_false, h2, if_true]
    simp [mi_ids, List.mem_append, or_comm, eq_comm]

theorem add_notification_loop_storage (db : UnifiedDatabase) (l : List MarketInsight) :
    (add_notification_loop db l).storage_ok = db.storage_ok := by
  induction l generalizing db with
  | nil => rfl
  | cons i rest ih =>
    simp only [add_notification_loop]
    rw [ih, add_notification_storage]

theorem add_notification_loop_mem (db : UnifiedDatabase) (l : List MarketInsight)
    (h : db.storage_ok = true) (iid : String) :
    iid ∈ mi_ids (add_notification_loop db l) ↔
      iid ∈ mi_ids db ∨ ∃ i, i ∈ l ∧ i.insight_id = iid := by
  induction l generalizing db with
  | nil => simp [add_notification_loop]
  | cons i rest ih =>
    simp only [add_notification_loop]
    rw [ih _ (by rw [add_notification_storage]; exact h),
      add_notification_mem db _ _ _ _ h iid]
    constructor
    · rintro ((hm | rfl) | ⟨x, hx, rfl⟩)
      · exact Or.inl hm
      · exact Or.inr ⟨i, List.mem_cons_self i rest, rfl⟩
      · exact Or.inr ⟨x, List.mem_cons_of_mem i hx, rfl⟩
    · rintro (hm | ⟨x, hx, rfl⟩)
      · exact Or.inl (Or.inl hm)
      · rcases List.mem_cons.mp hx with rfl | hx2
        · exact Or.inl (Or.inr rfl)
        · exact Or.inr ⟨x, hx2, rfl⟩

theorem delay_seq_length (m fac : ℚ) : ∀ (r : Nat) (d : ℚ), (delay_seq m fac d r).length = r := by
  intro r
  induction r with
  | zero => intro d; rfl
  | succ n ih => intro d; simp only [delay_seq, List.length_cons, ih]

theorem delay_seq_getD (m fac : ℚ) (hfac : 0 ≤ fac) :
    ∀ (r : Nat) (d : ℚ), 0 ≤ d → d ≤ m → ∀ k, k < r →
      (delay_seq m fac d r).getD k 0 = min (d * fac ^ k) m := by
  intro r
  induction r with
  | zero => intro d _ _ k hk; cases hk
  | succ n ih =>
    intro d hd hdm k hk
    match k with
    | 0 =>
      simp only [delay_seq, List.getD_cons_zero, pow_zero, mul_one]
      exact (min_eq_left hdm).symm
    | k + 1 =>
      have hm0 : (0:ℚ) ≤ m := le_trans hd hdm
      have hd2 : (0:ℚ) ≤ min (d * fac) m := le_min (mul_nonneg hd hfac) hm0
      have hd2m : min (d * fac) m ≤ m := min_le_right _ _
      simp only [delay_seq, List.getD_cons_succ]
      rw [ih (min (d * fac) m) hd2 hd2m k (Nat.lt_of_succ_lt_succ hk)]
      rcases le_or_lt (d * fac) m with hcase | hcase
      · rw [min_eq_left hcase]
        congr 1
        rw [pow_succ]
        ring
      · rw [min_eq_right (le_of_lt hcase)]
        have hfac1 : (1:ℚ) ≤ fac := by
          by_contra hcon
          push_neg at hcon
          have : d * fac ≤ d := mul_le_of_le_one_right hd (le_of_lt hcon)
          linarith
        have hpow1 : (1:ℚ) ≤ fac ^ k := one_le_pow₀ hfac1
        have h1 : m ≤ m * fac ^ k := le_mul_of_one_le_right hm0 hpow1
        have h2 : m * fac ^ k ≤ d * fac * fac ^ k :=
          mul_le_mul_of_nonneg_right (le_of_lt hcase) (pow_nonneg hfac k)
        have h3 : d * fac ^ (k + 1) = d * fac * fac ^ k := by
          rw [pow_succ]; ring
        rw [min_eq_right h1, min_eq_right (by rw [h3]; linarith)]

theorem retryFrom_all_declared {ε α : Type} (f : Nat → AttemptResult ε α) (m fac : ℚ)
    (es : Nat → ε) :
    ∀ (remaining attempt : Nat) (d : ℚ),
      (∀ k, k ≤ remaining → f (attempt + k) = .declaredErr (es (attempt + k))) →
      retryFrom f m fac attempt d remaining =
        ⟨.raised (es (attempt + remaining)), remaining + 1, delay_seq m fac d remaining⟩ := by
  intro remaining
  induction remaining with
  | zero =>
    intro attempt d h
    have h0 := h 0 (Nat.le_refl 0)
    rw [Nat.add_zero] at h0
    simp [retryFrom, h0, delay_seq]
  | succ n ih =>
    intro attempt d h
    have h0 := h 0 (Nat.zero_le _)
    rw [Nat.add_zero] at h0
    simp only [retryFrom, h0]
    rw [ih (attempt + 1) (min (d * fac) m)
      (fun k hk => by rw [Nat.add_assoc, Nat.add_comm 1 k]; exact h (k + 1) (Nat.succ_le_succ hk))]
    have harr : attempt + 1 + n = attempt + (n + 1) := by omega
    simp [delay_seq, harr]

theorem retryFrom_undeclared {ε α : Type} (f : Nat → AttemptResult ε α) (m fac : ℚ) (e : ε) :
    ∀ (j remaining attempt : Nat) (d : ℚ),
      j ≤ remaining →
      (∀ k, k < j → ∃ e0, f (attempt + k) = .declaredErr e0) →
      f (attempt + j) = .undeclaredErr e →
      retryFrom f m fac attempt d remaining =
        ⟨.raised e, j + 1, (delay_seq m fac d remaining).take j⟩ := by
  intro j
  induction j with
  | zero =>
    intro remaining attempt d _ _ hundecl
    rw [Nat.add_zero] at hundecl
    match remaining with
    | 0 => simp only [retryFrom, hundecl, List.take_zero]
    | r + 1 => simp only [retryFrom, hundecl, List.take_zero]
  | succ n ih =>
    intro remaining attempt d hle hdecl hundecl
    match remaining with
    | 0 => omega
    | r + 1 =>
      obtain ⟨e0, he0⟩ := hdecl 0 (Nat.succ_pos n)
      rw [Nat.add_zero] at he0
      simp only [retryFrom, he0]
      rw [ih r (attempt + 1) (min (d * fac) m) (Nat.le_of_succ_le_succ hle)
        (fun k hk => by
          rw [Nat.add_assoc, Nat.add_comm 1 k]
          exact hdecl (k + 1) (Nat.succ_lt_succ hk))
        (by rw [Nat.add_assoc, Nat.add_comm 1 n]; exact hundecl)]
      simp [delay_seq]

theorem send_batch_attempted (sendOk : MarketInsight → Bool) (l : List MarketInsight) :
    (send_batch_notifications sendOk l).2.2 = l := by
  induction l with
  | nil => rfl
  | cons i rest ih =>
    simp only [send_batch_notifications]
    by_cases hs : sendOk i = true
    · simp [hs, ih]
    · simp only [Bool.not_eq_true] at hs
      simp [hs, ih]

theorem send_news_loop_db_frozen (sendOk : NewsArticle → Bool) (db : UnifiedDatabase)
    (l : List NewsArticle) (h : db.storage_ok = false) :
    (send_news_loop sendOk db l).1 = db := by
  induction l generalizing db with
  | nil => rfl
  | cons a rest ih =>
    simp only [send_news_loop]
    by_cases hs : sendOk a = true
    · simp only [hs, if_true]
      have hmark : mark_as_sent db a = db := by
        unfold mark_as_sent add_sent_news
        simp [h]
      rw [hmark, ih db h]
    · simp only [Bool.not_eq_true] at hs
      simp only [hs, Bool.false_eq_true, if_false]
      exact ih db h

/-! ## Claim theorems -/

/-- Claim C7: the Dedup Store commit is idempotent.  For every fingerprint
already present in its namespace's table, a second `add_sent_news`
(resp. `add_notification`) with the same fingerprint returns `false` ("already
present") without raising and without modifying the store: the state after the
call equals the state before it. -/
theorem claim_C7 :
    (∀ (db : UnifiedDatabase) (nid t u ts : String), nid ∈ cm_ids db →
      add_sent_news db nid t u ts = (false, db)) ∧
    (∀ (db : UnifiedDatabase) (iid s lb n : String), iid ∈ mi_ids db →
      add_notification db iid s lb n = (false, db)) := by
  constructor
  · intro db nid t u ts hmem
    unfold add_sent_news
    by_cases h : db.storage_ok = false
    · simp [h]
    · simp [h, hmem]
  · intro db iid s lb n hmem
    unfold add_notification
    by_cases h : db.storage_ok = false
    · simp [h]
    · simp [h, hmem]

/-- Witness for C7: re-adding "f1" (resp. "mi-1") to a store that already
holds it returns `false` and leaves the store unchanged. -/
theorem claim_C7_witness :
    add_sent_news exDbSent "f1" "t" "u" "ts" = (false, exDbSent) ∧
    add_notification exDbSent "mi-1" "s" "l" "n" = (false, exDbSent) :=
  ⟨claim_C7.1 exDbSent "f1" "t" "u" "ts" (by decide),
   claim_C7.2 exDbSent "mi-1" "s" "l" "n" (by decide)⟩

/-- Claim C8: the Dedup Store existence check fails closed.  For every store
whose storage layer fails (every underlying operation raises), `is_news_sent`
returns `false` for every key instead of raising, and `get_all_insight_ids`
returns the empty set instead of raising. -/
theorem claim_C8 :
    ∀ (cm : List CMRecord) (mi : List NotifRecord) (nid : String),
      is_news_sent ⟨cm, mi, false⟩ nid = false ∧
      get_all_insight_ids ⟨cm, mi, false⟩ = [] := by
  intro cm mi nid
  exact ⟨rfl, rfl⟩

/-- Claim C9: the capital-market cycle delivers at most `MAX_NEWS_PER_RUN`
items.  The truncation step always keeps the length-`min` prefix of the
filtered list (`take`), and the list handed to the delivery loop by
`job_capital_market` at the configured maximum 10 never has more than 10
elements. -/
theorem claim_C9 :
    (∀ (maxN : Nat) (arts : List NewsArticle),
       capped_articles maxN arts = arts.take maxN ∧
       (capped_articles maxN arts).length = min arts.length maxN) ∧
    (∀ (sendOk : NewsArticle → Bool) (db : UnifiedDatabase)
       (articles : List NewsArticle),
       (job_capital_market settings.MAX_NEWS_PER_RUN sendOk db articles).2.length ≤
         settings.MAX_NEWS_PER_RUN) := by
  have hcap : ∀ (maxN : Nat) (arts : List NewsArticle),
      capped_articles maxN arts = arts.take maxN ∧
      (capped_articles maxN arts).length = min arts.length maxN := by
    intro maxN arts
    unfold capped_articles
    by_cases h : arts.length > maxN
    · refine ⟨by simp [h], ?_⟩
      simp only [h, if_true]
      rw [List.length_take]
      exact Nat.min_comm maxN arts.length
    · push_neg at h
      refine ⟨by simp [Nat.not_lt_of_le h, List.take_of_length_le h], ?_⟩
      simp only [gt_iff_lt, Nat.not_lt_of_le h, if_false]
      exact (Nat.min_eq_left h).symm
  refine ⟨hcap, ?_⟩
  intro sendOk db articles
  unfold job_capital_market
  by_cases h1 : articles.isEmpty
  · simp [h1]
  · simp only [h1, Bool.false_eq_true, if_false]
    by_cases h2 : (valid_articles db articles).isEmpty
    · simp [h2]
    · simp only [h2, Bool.false_eq_true, if_false]
      rw [send_news_loop_attempted]
      rw [(hcap settings.MAX_NEWS_PER_RUN (valid_articles db articles)).2]
      exact Nat.min_le_right _ _

/-- Claim C10 (implicit): in every capital-market cycle an article whose
description is the empty string is silently excluded: only articles with a
non-empty description are attempted by the delivery loop, an empty-description
article from the scrape is never attempted, and every fingerprint newly
committed in the cycle belongs to an attempted article that was sent
successfully and has a non-empty description. -/
theorem claim_C10 :
    (∀ (maxN : Nat) (sendOk : NewsArticle → Bool) (db : UnifiedDatabase)
       (articles : List NewsArticle) (a : NewsArticle),
       a ∈ (job_capital_market maxN sendOk db articles).2 → a.description ≠ "") ∧
    (∀ (maxN : Nat) (sendOk : NewsArticle → Bool) (db : UnifiedDatabase)
       (articles : List NewsArticle) (a : NewsArticle),
       a ∈ articles → a.description = "" →
       a ∉ (job_capital_market maxN sendOk db articles).2) ∧
    (∀ (maxN : Nat) (sendOk : NewsArticle → Bool) (db : UnifiedDatabase)
       (articles : List NewsArticle) (nid : String),
       nid ∈ cm_ids (job_capital_market maxN sendOk db articles).1 →
       nid ∈ cm_ids db ∨ ∃ a, a ∈ (job_capital_market maxN sendOk db articles).2 ∧
         sendOk a = true ∧ a.news_id = nid ∧ a.description ≠ "") := by
  have hmem_valid : ∀ (maxN : Nat) (sendOk : NewsArticle → Bool)
      (db : UnifiedDatabase) (articles : List NewsArticle) (a : NewsArticle),
      a ∈ (job_capital_market maxN sendOk db articles).2 →
      a ∈ valid_articles db articles := by
    intro maxN sendOk db articles a ha
    unfold job_capital_market at ha
    by_cases h1 : articles.isEmpty
    · simp [h1] at ha
    · simp only [h1, Bool.false_eq_true, if_false] at ha
      by_cases h2 : (valid_articles db articles).isEmpty
      · simp [h2] at ha
      · simp only [h2, Bool.false_eq_true, if_false] at ha
        rw [send_news_loop_attempted] at ha
        unfold capped_articles at ha
        by_cases h3 : (valid_articles db articles).length > maxN
        · simp only [h3, if_true] at ha
          exact List.mem_of_mem_take ha
        · simp only [h3, if_false] at ha
          exact ha
  have hdesc : ∀ (maxN : Nat) (sendOk : NewsArticle → Bool) (db : UnifiedDatabase)
      (articles : List NewsArticle) (a : NewsArticle),
      a ∈ (job_capital_market maxN sendOk db articles).2 → a.description ≠ "" := by
    intro maxN sendOk db articles a ha
    have hv := hmem_valid maxN sendOk db articles a ha
    unfold valid_articles at hv
    have := (List.mem_filter.mp hv).2
    simpa using this
  refine ⟨hdesc, ?_, ?_⟩
  · intro maxN sendOk db articles a _ hempty ha
    exact hdesc maxN sendOk db articles a ha hempty
  · intro maxN sendOk db articles nid hnid
    by_cases hok : db.storage_ok = true
    · unfold job_capital_market at hnid ⊢
      by_cases h1 : articles.isEmpty
      · simp [h1] at hnid
        simp [h1]
        exact hnid
      · simp only [h1, Bool.false_eq_true, if_false] at hnid ⊢
        by_cases h2 : (valid_articles db articles).isEmpty
        · simp [h2] at hnid
          simp [h2]
          exact hnid
        · simp only [h2, Bool.false_eq_true, if_false] at hnid ⊢
          rw [send_news_loop_mem sendOk db _ hok nid] at hnid
          rcases hnid with hm | ⟨a, ha, hsend, hid⟩
          · exact Or.inl hm
          · refine Or.inr ⟨a, ?_, hsend, hid, ?_⟩
            · rw [send_news_loop_attempted]
              exact ha
            · have hv : a ∈ valid_articles db articles := by
                unfold capped_articles at ha
                by_cases h3 : (valid_articles db articles).length > maxN
                · simp only [h3, if_true] at ha
                  exact List.mem_of_mem_take ha
                · simp only [h3, if_false] at ha
                  exact ha
              unfold valid_articles at hv
              have := (List.mem_filter.mp hv).2
              simpa using this
    · have hfalse : db.storage_ok = false := by
        cases h : db.storage_ok
        · rfl
        · exact absurd h hok
      unfold job_capital_market at hnid
      by_cases h1 : articles.isEmpty
      · simp [h1] at hnid
        exact Or.inl hnid
      · simp only [h1, Bool.false_eq_true, if_false] at hnid
        by_cases h2 : (valid_articles db articles).isEmpty
        · simp [h2] at hnid
          exact Or.inl hnid
        · simp only [h2, Bool.false_eq_true, if_false] at hnid
          rw [send_news_loop_db_frozen sendOk db _ hfalse] at hnid
          exact Or.inl hnid

/-- Witness for C10: the delivered article `exA` of a concrete run has a
non-empty description. -/
theorem claim_C10_witness : exA.description ≠ "" :=
  claim_C10.1 10 sendOkAll freshDb [exA] exA (by decide)

/-- Claim C5: within one batch, delivery attempts the items strictly in the
batch's order (both the capital-market delivery loop and the market-insights
batch sender attempt exactly the input list, in its order, regardless of
per-item failures), and a failed item does not block later items: in the
concrete [A, B, C] run where B's send permanently fails, all three items are
attempted in order, and exactly the fingerprints of the successful A and C are
committed. -/
theorem claim_C5 :
    (∀ (sendOk : NewsArticle → Bool) (db : UnifiedDatabase) (l : List NewsArticle),
       (send_news_loop sendOk db l).2 = l) ∧
    (∀ (sendOk : MarketInsight → Bool) (l : List MarketInsight),
       (send_batch_notifications sendOk l).2.2 = l) ∧
    ((send_news_loop sendFailB freshDb [exA, exB, exC]).2 = [exA, exB, exC] ∧
     sendFailB exB = false ∧
     cm_ids (send_news_loop sendFailB freshDb [exA, exB, exC]).1 = ["a", "c"]) := by
  refine ⟨send_news_loop_attempted, send_batch_attempted, ?_, ?_, ?_⟩
  · decide
  · decide
  · decide

/-- Claim C1, counterexample: in the market-insights job, an insight whose
send fails is nonetheless committed to the Dedup Store.  With a fresh store
and a transport that fails every send, the single filtered insight's
fingerprint "mi-1" ends up in the notifications namespace, so "an item whose
send failed is not committed" is false for `job_market_insights`. -/
theorem claim_C1_counterexample :
    sendFailAllMI exInsightFail = false ∧
    "mi-1" ∈ mi_ids
      (job_market_insights "14 Dec, 2025" sendFailAllMI freshDb [exInsightFail]).1 := by
  decide

/-- Claim C1, amended: in the capital-market job the commit-iff-success
invariant holds — over a healthy store, a fingerprint is in the store after
the delivery loop iff it was already there or belongs to an article of the
batch whose send succeeded.  In the market-insights job, however, the store
after the cycle contains a fingerprint iff it was already there or belongs to
any insight that survived the filters, regardless of whether that insight's
send succeeded. -/
theorem claim_C1_amended :
    (∀ (sendOk : NewsArticle → Bool) (db : UnifiedDatabase) (l : List NewsArticle),
       db.storage_ok = true → ∀ nid,
       (nid ∈ cm_ids (send_news_loop sendOk db l).1 ↔
         nid ∈ cm_ids db ∨ ∃ a, a ∈ l ∧ sendOk a = true ∧ a.news_id = nid)) ∧
    (∀ (today : String) (sendOk : MarketInsight → Bool) (db : UnifiedDatabase)
       (insights : List MarketInsight),
       db.storage_ok = true → ∀ iid,
       (iid ∈ mi_ids (job_market_insights today sendOk db insights).1 ↔
         iid ∈ mi_ids db ∨
           ∃ i, i ∈ filter_new_insights today insights (get_all_insight_ids db) ∧
             i.insight_id = iid)) := by
  constructor
  · intro sendOk db l h nid
    exact send_news_loop_mem sendOk db l h nid
  · intro today sendOk db insights h iid
    unfold job_market_insights
    by_cases h1 : insights.isEmpty
    · have : insights = [] := List.isEmpty_iff.mp h1
      subst this
      simp [h1, filter_new_insights]
    · simp only [h1, Bool.false_eq_true, if_false]
      by_cases h2 : (filter_new_insights today insights (get_all_insight_ids db)).isEmpty
      · have hnil : filter_new_insights today insights (get_all_insight_ids db) = [] :=
          List.isEmpty_iff.mp h2
        simp [h2, hnil]
      · simp only [h2, Bool.false_eq_true, if_false]
        exact add_notification_loop_mem db _ h iid

/-- Witness for the amended C1 at concrete inputs: a successfully sent
article's fingerprint is committed, and a filtered new insight's fingerprint
is committed even though every insight send failed. -/
theorem claim_C1_amended_witness :
    "f1" ∈ cm_ids (send_news_loop sendOkAll freshDb [exF1]).1 ∧
    "mi-new" ∈ mi_ids
      (job_market_insights "14 Dec, 2025" sendFailAllMI freshDb [exTodayInsight]).1 :=
  ⟨(claim_C1_amended.1 sendOkAll freshDb [exF1] rfl "f1").mpr
     (Or.inr ⟨exF1, by decide, rfl, rfl⟩),
   (claim_C1_amended.2 "14 Dec, 2025" sendFailAllMI freshDb [exTodayInsight] rfl "mi-new").mpr
     (Or.inr ⟨exTodayInsight, by decide, rfl⟩)⟩

/-- Claim C4, counterexample: `filter_new_insights` does not return exactly
the input items whose fingerprint is absent from the seen-ids set — the
insight dated "12 Dec, 2025" has a fingerprint absent from the empty seen set
yet is dropped (by the recency filter) with reference date "14 Dec, 2025". -/
theorem claim_C4_counterexample :
    ([] : List String).contains exOldInsight.insight_id = false ∧
    filter_new_insights "14 Dec, 2025" [exOldInsight] [] = [] := by
  decide

/-- Claim C4, amended: over a healthy store, `filter_new_articles` returns
exactly the input items whose fingerprint is not in the store's
capital-market namespace; `filter_new_insights` returns exactly the input
items that pass the recency check and whose fingerprint is not in the
seen-ids set.  In particular, after a fresh store commits fingerprints f1 and
f2, a second cycle returning the same two items passes zero items on. -/
theorem claim_C4_amended :
    (∀ (db : UnifiedDatabase) (articles : List NewsArticle), db.storage_ok = true →
       filter_new_articles db articles =
         articles.filter fun a => decide (a.news_id ∉ cm_ids db)) ∧
    (∀ (today : String) (insights : List MarketInsight) (seen : List String),
       filter_new_insights today insights seen =
         insights.filter fun i =>
           decide ((i.news_date = "" ∨ is_today_ist today i.news_date = true) ∧
             i.insight_id ∉ seen)) ∧
    (cm_ids (send_news_loop sendOkAll freshDb [exF1, exF2]).1 = ["f1", "f2"] ∧
     filter_new_articles (send_news_loop sendOkAll freshDb [exF1, exF2]).1
       [exF1, exF2] = []) := by
  refine ⟨?_, ?_, by decide, by decide⟩
  · intro db articles h
    unfold filter_new_articles
    apply List.filter_congr
    intro a _
    simp [is_news_sent, h]
  · intro today insights seen
    unfold filter_new_insights
    apply List.filter_congr
    intro i _
    by_cases hd : i.news_date = ""
    · by_cases hs : i.insight_id ∈ seen
      · simp [hd, hs, List.elem_iff]
      · simp [hd, hs, List.elem_iff]
    · by_cases ht : is_today_ist today i.news_date = true
      · by_cases hs : i.insight_id ∈ seen
        · simp [hd, ht, hs, List.elem_iff]
        · simp [hd, ht, hs, List.elem_iff]
      · by_cases hs : i.insight_id ∈ seen
        · simp [hd, ht, hs, List.elem_iff]
        · simp [hd, ht, hs, List.elem_iff]

/-- Witness for the amended C4: on a fresh healthy store the article filter
agrees with the membership-based filter at a concrete input. -/
theorem claim_C4_amended_witness :
    filter_new_articles freshDb [exF1] =
      [exF1].filter fun a => decide (a.news_id ∉ cm_ids freshDb) :=
  claim_C4_amended.1 freshDb [exF1] rfl

/-- Claim C3: the market-insights recency filter.  For a non-empty
source-reported date: if the date cannot be parsed (the extracted chunk is
empty, or the parse yields nothing) the check fail-opens to `true` and such an
insight is kept; if the parsed date differs from today in IST the check is
`false` and such an insight is discarded by `filter_new_insights`; if it
equals today the insight is kept (if also unseen).  Concretely, with
reference date "14 Dec, 2025": an item dated "12 Dec, 2025" is discarded, one
dated "14 Dec, 2025" is kept, and one with an unparsable (whitespace) date is
kept. -/
theorem claim_C3 :
    (∀ (today d : String),
       parse_news_date d = none ∨ parse_news_date d = some "" →
       is_today_ist today d = true) ∧
    (∀ (today d p : String), parse_news_date d = some p → p ≠ "" → p ≠ today →
       is_today_ist today d = false) ∧
    (∀ (today d : String), today ≠ "" → parse_news_date d = some today →
       is_today_ist today d = true) ∧
    (∀ (today : String) (insights : List MarketInsight) (seen : List String)
       (i : MarketInsight), i.news_date ≠ "" →
       is_today_ist today i.news_date = false →
       i ∉ filter_new_insights today insights seen) ∧
    (∀ (today : String) (insights : List MarketInsight) (seen : List String)
       (i : MarketInsight), i ∈ insights →
       is_today_ist today i.news_date = true → i.insight_id ∉ seen →
       i ∈ filter_new_insights today insights seen) ∧
    (is_today_ist "14 Dec, 2025" "12 Dec, 2025  3:23 PM (IST)" = false ∧
     is_today_ist "14 Dec, 2025" "14 Dec, 2025  9:05 AM (IST)" = true ∧
     is_today_ist "14 Dec, 2025" " " = true ∧
     filter_new_insights "14 Dec, 2025"
       [exOldInsight, exTodayInsight, exBlankDateInsight] [] =
       [exTodayInsight, exBlankDateInsight]) := by
  refine ⟨?_, ?_, ?_, ?_, ?_, by decide, by decide, by decide, by decide⟩
  · intro today d h
    rcases h with h | h <;> simp [is_today_ist, h]
  · intro today d p hparse hp hptoday
    simp [is_today_ist, hparse, hp, hptoday]
  · intro today d htoday hparse
    simp [is_today_ist, hparse]
  · intro today insights seen i hdate htoday hmem
    have := (List.mem_filter.mp hmem).2
    simp only [Bool.and_eq_true] at this
    have h1 := this.1
    rw [if_pos (by simpa using hdate)] at h1
    rw [htoday] at h1
    cases h1
  · intro today insights seen i hmem htoday hseen
    apply List.mem_filter.mpr
    refine ⟨hmem, ?_⟩
    simp only [Bool.and_eq_true]
    constructor
    · by_cases hd : i.news_date = ""
      · simp [hd]
      · rw [if_pos (by simpa using hd)]
        exact htoday
    · simp [List.elem_iff, hseen]

/-- Witness for C3: a date parsing to "12 Dec, 2025" is reported not-today
against reference date "14 Dec, 2025". -/
theorem claim_C3_witness : is_today_ist "14 Dec, 2025" "12 Dec, 2025" = false :=
  claim_C3.2.1 "14 Dec, 2025" "12 Dec, 2025" "12 Dec, 2025" (by decide) (by decide)
    (by decide)

/-- Claim C2, counterexample: the delay before attempt 2 is the raw
`initial_delay`, not `min (initial_delay * backoff_factor ^ 0) max_delay`.
With `retries = 1`, `initial_delay = 20`, `max_delay = 10`,
`backoff_factor = 2` and every attempt failing with a declared exception, the
wrapper sleeps 20 before the second attempt while the claimed formula gives
10. -/
theorem claim_C2_counterexample :
    (retry_with_backoff 1 (20 : ℚ) 10 2 alwaysDeclared).delays.getD 0 0 = 20 ∧
    min ((20 : ℚ) * 2 ^ (0 : Nat)) 10 = 10 ∧ (20 : ℚ) ≠ 10 := by
  refine ⟨by decide, by norm_num, by norm_num⟩

/-- Claim C2, amended: provided `0 ≤ initial_delay ≤ max_delay` and
`0 ≤ backoff_factor` (true of every call site in the repository), an
operation failing with a declared exception on every attempt makes exactly
`retries + 1` attempts, performs `retries` sleeps, and the sleep before
attempt `k` (1-based, `k ≥ 2`; index `k - 2` below) lasts
`min (initial_delay * backoff_factor ^ (k - 2)) max_delay`.  The attempt
count needs no side conditions. -/
theorem claim_C2_amended {ε α : Type} (retries : Nat) (i m fac : ℚ)
    (es : Nat → ε) (f : Nat → AttemptResult ε α)
    (hi : 0 ≤ i) (him : i ≤ m) (hfac : 0 ≤ fac)
    (hf : ∀ k, k ≤ retries → f k = .declaredErr (es k)) :
    (retry_with_backoff retries i m fac f).attemptsMade = retries + 1 ∧
    (retry_with_backoff retries i m fac f).delays.length = retries ∧
    ∀ k, k < retries →
      (retry_with_backoff retries i m fac f).delays.getD k 0 =
        min (i * fac ^ k) m := by
  have h := retryFrom_all_declared f m fac es retries 0 i
    (fun k hk => by simpa using hf k hk)
  unfold retry_with_backoff
  rw [h]
  exact ⟨rfl, delay_seq_length m fac retries i,
    fun k hk => delay_seq_getD m fac hfac retries i hi him k hk⟩

/-- Witness for the amended C2 at the scraper's parameters (`retries = 3`,
`initial_delay = 2`, defaults `max_delay = 10`, `backoff_factor = 2`): four
attempts, three sleeps, and the sleep before attempt 4 is
`min (2 * 2 ^ 2) 10 = 8`. -/
theorem claim_C2_amended_witness :
    (retry_with_backoff 3 (2 : ℚ) 10 2 alwaysDeclared).attemptsMade = 4 ∧
    (retry_with_backoff 3 (2 : ℚ) 10 2 alwaysDeclared).delays.length = 3 ∧
    (retry_with_backoff 3 (2 : ℚ) 10 2 alwaysDeclared).delays.getD 2 0 =
      min ((2 : ℚ) * 2 ^ (2 : Nat)) 10 := by
  have h := claim_C2_amended 3 (2 : ℚ) 10 2 (fun _ => ()) alwaysDeclared
    (by norm_num) (by norm_num) (by norm_num) (fun k _ => rfl)
  exact ⟨h.1, h.2.1, h.2.2 2 (by norm_num)⟩

/-- Claim C6: exceptions outside the declared set propagate immediately —
if the first `j` attempts fail with declared exceptions and attempt `j + 1`
raises an undeclared one, the wrapper stops with that exception after exactly
`j + 1` attempts and only the `j` sleeps already performed; and when every
attempt fails with a declared exception, the exception of the final attempt
(index `retries`) is the one that propagates to the caller. -/
theorem claim_C6 {ε α : Type} :
    (∀ (retries : Nat) (i m fac : ℚ) (f : Nat → AttemptResult ε α) (e : ε)
       (j : Nat), j ≤ retries →
       (∀ k, k < j → ∃ e0, f k = .declaredErr e0) →
       f j = .undeclaredErr e →
       (retry_with_backoff retries i m fac f).outcome = .raised e ∧
       (retry_with_backoff retries i m fac f).attemptsMade = j + 1 ∧
       (retry_with_backoff retries i m fac f).delays.length = j) ∧
    (∀ (retries : Nat) (i m fac : ℚ) (es : Nat → ε)
       (f : Nat → AttemptResult ε α),
       (∀ k, k ≤ retries → f k = .declaredErr (es k)) →
       (retry_with_backoff retries i m fac f).outcome = .raised (es retries)) := by
  constructor
  · intro retries i m fac f e j hle hdecl hundecl
    unfold retry_with_backoff
    rw [retryFrom_undeclared f m fac e j retries 0 i hle
      (fun k hk => by simpa using hdecl k hk) (by simpa using hundecl)]
    refine ⟨rfl, rfl, ?_⟩
    simp only [List.length_take, delay_seq_length]
    exact Nat.min_eq_left hle
  · intro retries i m fac es f hf
    unfold retry_with_backoff
    rw [retryFrom_all_declared f m fac es retries 0 i
      (fun k hk => by simpa using hf k hk)]
    simp

/-- Witness for C6: with a declared failure on attempt 1 and an undeclared
exception on attempt 2 (of a 3-attempt budget), the wrapper raises after
exactly 2 attempts and 1 sleep; and under all-declared failures the final
outcome is the raise of the last attempt. -/
theorem claim_C6_witness :
    ((retry_with_backoff 2 (1 : ℚ) 10 2 exMixedAttempts).outcome =
        RunOutcome.raised () ∧
     (retry_with_backoff 2 (1 : ℚ) 10 2 exMixedAttempts).attemptsMade = 2 ∧
     (retry_with_backoff 2 (1 : ℚ) 10 2 exMixedAttempts).delays.length = 1) ∧
    (retry_with_backoff 2 (1 : ℚ) 10 2 alwaysDeclared).outcome =
      RunOutcome.raised () := by
  constructor
  · exact claim_C6.1 2 (1 : ℚ) 10 2 exMixedAttempts () 1 (by norm_num)
      (fun k hk => ⟨(), by
        have hk0 : k = 0 := by omega
        subst hk0
        rfl⟩) rfl
  · exact claim_C6.2 2 (1 : ℚ) 10 2 (fun _ => ()) alwaysDeclared (fun k _ => rfl)
